import Mathlib

/-!
Shallow embedding of the nxp_simtemp simulated temperature sensor driver
(src/kernel/nxp_simtemp.c and src/kernel/nxp_simtemp.h) together with
theorems about its behaviour.

Machine integers are modelled as Nat/Int with explicit reduction modulo
2^32 or 2^64 where the C type could wrap.  The sysfs text buffers are
modelled as the list of characters up to the terminating NUL.  The kernel
environment (monotonic clock, random source, the state observed after a
blocking wait, copy_to_user success) is passed as explicit parameters.
-/

namespace NxpSimtemp

/-- RAMP_START_MILLIC from nxp_simtemp.h. -/
def RAMP_START_MILLIC : Int := 40000

/-- RAMP_STEP_MILLIC from nxp_simtemp.h. -/
def RAMP_STEP_MILLIC : Int := 100

/-- RAMP_MAX_MILLIC from nxp_simtemp.h. -/
def RAMP_MAX_MILLIC : Int := 44000

/-- NOISY_MEAN_MILLIC from nxp_simtemp.h. -/
def NOISY_MEAN_MILLIC : Int := 40000

/-- NOISY_DELTA_MILLIC from nxp_simtemp.h. -/
def NOISY_DELTA_MILLIC : Int := 4000

/-- NORMAL_MEAN_MILLIC from nxp_simtemp.h. -/
def NORMAL_MEAN_MILLIC : Int := 40000

/-- NORMAL_DELTA_MILLIC from nxp_simtemp.h. -/
def NORMAL_DELTA_MILLIC : Int := 1000

/-- struct simtemp_sample from nxp_simtemp.h: a packed record of a u64
nanosecond timestamp, an s32 temperature in millidegrees Celsius and a
u32 flags bitfield.  Its size is 8 + 4 + 4 = 16 bytes. -/
structure simtemp_sample where
  timestamp_ns : Nat
  temp_mC : Int
  flags : Nat
deriving DecidableEq, Inhabited

/-- sizeof(struct simtemp_sample): the packed layout is 16 bytes. -/
def simtemp_sample_size : Nat := 16

/-- The anonymous stats structure inside struct nxp_simtemp_dev:
three u32 counters. -/
structure simtemp_stats where
  updates : Nat
  alerts : Nat
  last_error : Nat
deriving DecidableEq

/-- struct nxp_simtemp_dev from nxp_simtemp.h, restricted to the fields
the driver logic reads or writes.  The sample array is modelled as a
total function from index to sample (the C array, index < buf_size). -/
structure nxp_simtemp_dev where
  buffer : Nat → simtemp_sample
  buf_size : Nat
  head : Nat
  tail : Nat
  sampling_ms : Nat
  threshold_mC : Int
  running : Bool
  mode : String
  stats : simtemp_stats

/-- Array slot assignment dev->buffer[i] = v. -/
def store (f : Nat → simtemp_sample) (i : Nat) (v : simtemp_sample) :
    Nat → simtemp_sample :=
  fun j => if j = i then v else f j

/-- buf_empty from nxp_simtemp.c: the buffer is empty iff head == tail. -/
def buf_empty (dev : nxp_simtemp_dev) : Bool :=
  dev.head == dev.tail

/-- The circular-buffer store step of simtemp_work_func (lines 137-146 of
nxp_simtemp.c): write the sample at head, advance head mod buf_size, and
if head now equals tail advance tail too (overwriting the oldest sample);
then increment stats.updates and, when the alert bit is set,
stats.alerts (both u32 counters). -/
def simtemp_push (dev : nxp_simtemp_dev) (s : simtemp_sample) :
    nxp_simtemp_dev :=
  let buffer := store dev.buffer dev.head s
  let head := (dev.head + 1) % dev.buf_size
  let tail := if head = dev.tail then (dev.tail + 1) % dev.buf_size
              else dev.tail
  let stats : simtemp_stats :=
    { updates := (dev.stats.updates + 1) % 2 ^ 32
      alerts := if s.flags &&& 2 ≠ 0 then (dev.stats.alerts + 1) % 2 ^ 32
                else dev.stats.alerts
      last_error := dev.stats.last_error }
  { dev with buffer := buffer, head := head, tail := tail, stats := stats }

/-- The update of the static ramp cursor in simtemp_work_func:
ramp += RAMP_STEP_MILLIC; if (ramp > RAMP_MAX_MILLIC) ramp = RAMP_START_MILLIC. -/
def ramp_update (ramp : Int) : Int :=
  let r := ramp + RAMP_STEP_MILLIC
  if r > RAMP_MAX_MILLIC then RAMP_START_MILLIC else r

/-- Reduction of get_random_u32() to a u32 value. -/
def u32_mod (n : Nat) : Nat := n % 2 ^ 32

/-- The temperature generation step of simtemp_work_func (lines 117-129):
given the mode string, the current ramp cursor and the raw random draw,
return the generated temperature and the new ramp cursor.  Any mode other
than "ramp" or "noisy" takes the normal branch, and only the "ramp"
branch touches the cursor. -/
def gen_temp (mode : String) (ramp : Int) (rnd : Nat) : Int × Int :=
  if mode = "ramp" then
    let r := ramp_update ramp
    (r, r)
  else if mode = "noisy" then
    (NOISY_MEAN_MILLIC + (↑(u32_mod rnd % (2 * NOISY_DELTA_MILLIC).toNat) : Int)
       - NOISY_DELTA_MILLIC, ramp)
  else
    (NORMAL_MEAN_MILLIC + (↑(u32_mod rnd % (2 * NORMAL_DELTA_MILLIC).toNat) : Int)
       - NORMAL_DELTA_MILLIC, ramp)

/-- The sample construction part of simtemp_work_func (lines 112-134):
timestamp from the monotonic clock, temperature from gen_temp, flags = 1,
then flags |= 2 when the temperature is strictly above the threshold.
Returns the sample and the new ramp cursor. -/
def simtemp_make_sample (mode : String) (threshold : Int) (ramp : Int)
    (now_ns rnd : Nat) : simtemp_sample × Int :=
  let tr := gen_temp mode ramp rnd
  let fl : Nat := 1
  let fl := if tr.1 > threshold then fl ||| 2 else fl
  (⟨now_ns % 2 ^ 64, tr.1, fl⟩, tr.2)

/-- simtemp_work_func from nxp_simtemp.c: build one sample from the
device's current mode and threshold and push it into the ring buffer.
The static ramp cursor is threaded explicitly. -/
def simtemp_work_func (dev : nxp_simtemp_dev) (ramp : Int)
    (now_ns rnd : Nat) : nxp_simtemp_dev × Int :=
  let sr := simtemp_make_sample dev.mode dev.threshold_mC ramp now_ns rnd
  (simtemp_push dev sr.1, sr.2)

/-- Errno values the driver returns (the C code returns their negation). -/
inductive Errno where
  | EINVAL
  | EAGAIN
  | ERESTARTSYS
  | EFAULT
deriving DecidableEq

/-- Decimal digit run parser underlying the kernel kstrto* helpers:
returns the value of the leading digit run and the rest of the input,
or none when the input does not start with a digit. -/
def parse_dec_digits (s : List Char) : Option (Nat × List Char) :=
  let digits := s.takeWhile Char.isDigit
  if digits = [] then none
  else some (digits.foldl (fun a c => a * 10 + (c.toNat - 48)) 0,
             s.dropWhile Char.isDigit)

/-- kstrtoull, base 10: optional leading plus sign, a digit run, and an
optional single trailing newline; anything else fails. -/
def kstrtoull (s : List Char) : Option Nat :=
  let s := match s with
           | '+' :: r => r
           | _ => s
  match parse_dec_digits s with
  | none => none
  | some (v, rest) =>
      if rest = [] ∨ rest = ['\n'] then some v else none

/-- kstrtouint, base 10: kstrtoull plus the range check for a u32.
The caller in the driver maps every failure (malformed text or
out-of-range value alike) to -EINVAL. -/
def kstrtouint (s : List Char) : Option Nat :=
  (kstrtoull s).bind fun v => if v < 2 ^ 32 then some v else none

/-- kstrtoll, base 10: an optional minus sign followed by the unsigned
grammar, negated. -/
def kstrtoll (s : List Char) : Option Int :=
  match s with
  | '-' :: r =>
      (match parse_dec_digits r with
       | none => none
       | some (v, rest) =>
           if rest = [] ∨ rest = ['\n'] then some (-(v : Int)) else none)
  | _ => (kstrtoull s).map fun v => (v : Int)

/-- kstrtos32, base 10: kstrtoll plus the range check for an s32. -/
def kstrtos32 (s : List Char) : Option Int :=
  (kstrtoll s).bind fun v =>
    if -(2 ^ 31) ≤ v ∧ v < 2 ^ 31 then some v else none

/-- sampling_ms_store from nxp_simtemp.c: parse the text as a u32,
reject parse failures and the value 0 with -EINVAL leaving the device
untouched, otherwise store the new sampling period and return count. -/
def sampling_ms_store (dev : nxp_simtemp_dev) (buf : List Char)
    (count : Nat) : Except Errno Nat × nxp_simtemp_dev :=
  match kstrtouint buf with
  | none => (Except.error Errno.EINVAL, dev)
  | some val =>
      if val = 0 then (Except.error Errno.EINVAL, dev)
      else (Except.ok count, { dev with sampling_ms := val })

/-- threshold_mC_store from nxp_simtemp.c: parse the text as an s32,
reject parse failures with -EINVAL leaving the device untouched,
otherwise store the new threshold and return count. -/
def threshold_mC_store (dev : nxp_simtemp_dev) (buf : List Char)
    (count : Nat) : Except Errno Nat × nxp_simtemp_dev :=
  match kstrtos32 buf with
  | none => (Except.error Errno.EINVAL, dev)
  | some val => (Except.ok count, { dev with threshold_mC := val })

/-- mode_store from nxp_simtemp.c: copy at most 15 characters of the
input into a NUL-terminated scratch buffer, accept it only when it
compares equal to "normal", "noisy" or "ramp", storing it as the new
mode; otherwise return -EINVAL leaving the device untouched. -/
def mode_store (dev : nxp_simtemp_dev) (buf : List Char) (count : Nat) :
    Except Errno Nat × nxp_simtemp_dev :=
  let tmp := buf.take 15
  if tmp = "normal".toList ∨ tmp = "noisy".toList ∨ tmp = "ramp".toList then
    (Except.ok count, { dev with mode := String.mk tmp })
  else (Except.error Errno.EINVAL, dev)

/-- The delivery half of simtemp_read (lines 204-212 of nxp_simtemp.c):
copy the sample at tail to the caller (the copyFails flag models a
copy_to_user failure, which yields -EFAULT), then advance tail mod
buf_size unconditionally. -/
def simtemp_read_deliver (dev : nxp_simtemp_dev) (copyFails : Bool) :
    Except Errno simtemp_sample × nxp_simtemp_dev :=
  let s := dev.buffer dev.tail
  let dev' := { dev with tail := (dev.tail + 1) % dev.buf_size }
  if copyFails then (Except.error Errno.EFAULT, dev')
  else (Except.ok s, dev')

/-- simtemp_read from nxp_simtemp.c.  count is the caller's buffer
length; nonblock models O_NONBLOCK; waitResult models the outcome of
wait_event_interruptible on an empty buffer: none when the wait is
interrupted (-ERESTARTSYS), some dev2 when the reader wakes up and
re-acquires the lock observing state dev2; copyFails models
copy_to_user failure. -/
def simtemp_read (dev : nxp_simtemp_dev) (count : Nat) (nonblock : Bool)
    (waitResult : Option nxp_simtemp_dev) (copyFails : Bool) :
    Except Errno simtemp_sample × nxp_simtemp_dev :=
  if count < simtemp_sample_size then (Except.error Errno.EINVAL, dev)
  else if buf_empty dev then
    if nonblock then (Except.error Errno.EAGAIN, dev)
    else
      match waitResult with
      | none => (Except.error Errno.ERESTARTSYS, dev)
      | some dev2 => simtemp_read_deliver dev2 copyFails
  else simtemp_read_deliver dev copyFails

/-- simtemp_poll from nxp_simtemp.c: the first component is true iff the
POLLIN | POLLRDNORM bits are set (buffer non-empty), the second iff
POLLPRI is set (head != tail and the sample at tail has its alert bit
set).  The device state is returned unchanged. -/
def simtemp_poll (dev : nxp_simtemp_dev) :
    (Bool × Bool) × nxp_simtemp_dev :=
  let mask_in := ! buf_empty dev
  let mask_pri := (dev.head != dev.tail) &&
                  ((dev.buffer dev.tail).flags &&& 2 != 0)
  ((mask_in, mask_pri), dev)

/-- nxp_simtemp_probe from nxp_simtemp.c: the freshly allocated device:
a zeroed buffer of 64 slots, head = tail = 0, sampling_ms = 1000,
threshold_mC = 45000, running, mode "normal", zeroed stats. -/
def nxp_simtemp_probe : nxp_simtemp_dev :=
  { buffer := fun _ => ⟨0, 0, 0⟩
    buf_size := 64
    head := 0
    tail := 0
    sampling_ms := 1000
    threshold_mC := 45000
    running := true
    mode := "normal"
    stats := ⟨0, 0, 0⟩ }

/-- Number of unread samples currently in the ring buffer. -/
def occupancy (dev : nxp_simtemp_dev) : Nat :=
  (dev.head + dev.buf_size - dev.tail) % dev.buf_size

/-- The unread samples of the ring buffer, oldest first. -/
def contents (dev : nxp_simtemp_dev) : List simtemp_sample :=
  (List.range (occupancy dev)).map
    fun i => dev.buffer ((dev.tail + i) % dev.buf_size)

/-- Structural well-formedness of the device: the indices are in range
and the buffer has at least two slots (the driver allocates 64). -/
def WF (dev : nxp_simtemp_dev) : Prop :=
  1 < dev.buf_size ∧ dev.head < dev.buf_size ∧ dev.tail < dev.buf_size

/-- Push a whole list of samples in order. -/
def pushList (dev : nxp_simtemp_dev) (l : List simtemp_sample) :
    nxp_simtemp_dev :=
  l.foldl simtemp_push dev

/-- Generate n consecutive samples with a fixed mode, threshold and
random draw, threading the ramp cursor. -/
def make_samples : Nat → String → Int → Int → Nat →
    List simtemp_sample × Int
  | 0, _, _, ramp, _ => ([], ramp)
  | n + 1, mode, th, ramp, rnd =>
      let sr := simtemp_make_sample mode th ramp 0 rnd
      let rest := make_samples n mode th sr.2 rnd
      (sr.1 :: rest.1, rest.2)

/-- Abstract (list-level) effect of one push on the unread contents of a
buffer with cap slots: append, dropping the oldest entry when the buffer
already holds cap - 1 samples. -/
def ring_step (cap : Nat) (q : List simtemp_sample) (s : simtemp_sample) :
    List simtemp_sample :=
  if q.length = cap - 1 then q.drop 1 ++ [s] else q ++ [s]

/-- Iterate the delivery step (a successful read) k times. -/
def popK : Nat → nxp_simtemp_dev → nxp_simtemp_dev
  | 0, d => d
  | k + 1, d => popK k (simtemp_read_deliver d false).2

/-- A concrete distinguishable sample used in the capacity scenario. -/
def mk_sample (i : Nat) : simtemp_sample := ⟨i, 40000 + i, 1⟩

/-- The probe device with its buffer shrunk to 4 slots, as in the
capacity-4 scenario of the specification. -/
def cap4_dev : nxp_simtemp_dev := { nxp_simtemp_probe with buf_size := 4 }

/-- Capacity-4 device after pushing the six samples s1..s6 in order. -/
def cap4_pushed : nxp_simtemp_dev :=
  pushList cap4_dev
    [mk_sample 1, mk_sample 2, mk_sample 3, mk_sample 4, mk_sample 5,
     mk_sample 6]

/-- First non-blocking read after the six pushes. -/
def cap4_pop1 : Except Errno simtemp_sample × nxp_simtemp_dev :=
  simtemp_read cap4_pushed 16 true none false

/-- Second non-blocking read after the six pushes. -/
def cap4_pop2 : Except Errno simtemp_sample × nxp_simtemp_dev :=
  simtemp_read cap4_pop1.2 16 true none false

/-- Third non-blocking read after the six pushes. -/
def cap4_pop3 : Except Errno simtemp_sample × nxp_simtemp_dev :=
  simtemp_read cap4_pop2.2 16 true none false

/-- Fourth non-blocking read after the six pushes. -/
def cap4_pop4 : Except Errno simtemp_sample × nxp_simtemp_dev :=
  simtemp_read cap4_pop3.2 16 true none false

/-! ### Helper lemmas -/

theorem mod_small (a N : Nat) (_hN : 0 < N) (h : a < 2 * N) :
    a % N = if a < N then a else a - N := by
  split_ifs with h1
  · exact Nat.mod_eq_of_lt h1
  · rw [Nat.mod_eq_sub_mod (Nat.le_of_not_lt h1)]
    exact Nat.mod_eq_of_lt (by omega)

theorem take15_eq_self (buf x : List Char) (hx : x.length < 15)
    (hm : buf.take 15 = x) : buf = x := by
  by_cases hb : buf.length ≤ 15
  · rwa [List.take_of_length_le hb] at hm
  · exfalso
    have hl := congrArg List.length hm
    rw [List.length_take] at hl
    omega

theorem normal_chars : "normal".toList = ['n', 'o', 'r', 'm', 'a', 'l'] := rfl

theorem noisy_chars : "noisy".toList = ['n', 'o', 'i', 's', 'y'] := rfl

theorem ramp_chars : "ramp".toList = ['r', 'a', 'm', 'p'] := rfl

/-! ### Ring-buffer lemmas -/

theorem occupancy_lt (dev : nxp_simtemp_dev) (h : WF dev) :
    occupancy dev < dev.buf_size := by
  obtain ⟨hN, hh, ht⟩ := h
  exact Nat.mod_lt _ (by omega)

theorem occupancy_zero_iff (dev : nxp_simtemp_dev) (h : WF dev) :
    occupancy dev = 0 ↔ dev.head = dev.tail := by
  obtain ⟨hN, hh, ht⟩ := h
  unfold occupancy
  rw [mod_small _ _ (by omega) (by omega)]
  split_ifs <;> omega

theorem contents_length (dev : nxp_simtemp_dev) :
    (contents dev).length = occupancy dev := by
  simp [contents]

theorem buf_empty_iff (dev : nxp_simtemp_dev) :
    buf_empty dev = true ↔ dev.head = dev.tail := by
  simp [buf_empty]

theorem contents_eq_nil_iff (dev : nxp_simtemp_dev) (h : WF dev) :
    contents dev = [] ↔ buf_empty dev = true := by
  rw [buf_empty_iff, ← occupancy_zero_iff dev h, ← contents_length,
    List.length_eq_zero]

theorem drop_one_map_range {α : Type} (f : Nat → α) (n : Nat) :
    (List.map f (List.range (n + 1))).drop 1 =
      List.map (fun i => f (i + 1)) (List.range n) := by
  rw [List.range_succ_eq_map, List.map_cons, List.drop_succ_cons,
    List.drop_zero, List.map_map]
  rfl

theorem contents_cons (dev : nxp_simtemp_dev) (h : WF dev)
    (hne : dev.head ≠ dev.tail) :
    ∃ rest, contents dev = dev.buffer dev.tail :: rest := by
  have ho : occupancy dev ≠ 0 :=
    fun h0 => hne ((occupancy_zero_iff dev h).mp h0)
  obtain ⟨k, hk⟩ := Nat.exists_eq_succ_of_ne_zero ho
  refine ⟨(List.range k).map
    (fun i => dev.buffer ((dev.tail + (i + 1)) % dev.buf_size)), ?_⟩
  unfold contents
  rw [hk, List.range_succ_eq_map, List.map_cons, List.map_map]
  have h0 : (dev.tail + 0) % dev.buf_size = dev.tail := by
    rw [Nat.add_zero]
    exact Nat.mod_eq_of_lt h.2.2
  rw [h0]
  rfl

theorem tail_add_occ (dev : nxp_simtemp_dev) (h : WF dev) :
    (dev.tail + occupancy dev) % dev.buf_size = dev.head := by
  obtain ⟨hN, hh, ht⟩ := h
  unfold occupancy
  rw [mod_small (dev.head + dev.buf_size - dev.tail) _ (by omega) (by omega)]
  split_ifs with h1
  · rw [mod_small _ _ (by omega) (by omega)]
    split_ifs <;> omega
  · rw [mod_small _ _ (by omega) (by omega)]
    split_ifs <;> omega

theorem tail_add_lt_ne_head (dev : nxp_simtemp_dev) (h : WF dev)
    (i : Nat) (hi : i < occupancy dev) :
    (dev.tail + i) % dev.buf_size ≠ dev.head := by
  obtain ⟨hN, hh, ht⟩ := h
  have ho := tail_add_occ dev ⟨hN, hh, ht⟩
  have hol : occupancy dev < dev.buf_size := Nat.mod_lt _ (by omega)
  rw [mod_small _ _ (by omega) (by omega)] at ho
  rw [mod_small _ _ (by omega) (by omega)]
  split_ifs at ho ⊢ <;> omega

theorem push_full_iff (dev : nxp_simtemp_dev) (h : WF dev) :
    (dev.head + 1) % dev.buf_size = dev.tail ↔
      occupancy dev = dev.buf_size - 1 := by
  obtain ⟨hN, hh, ht⟩ := h
  unfold occupancy
  rw [mod_small (dev.head + 1) _ (by omega) (by omega),
    mod_small (dev.head + dev.buf_size - dev.tail) _ (by omega) (by omega)]
  split_ifs <;> omega

theorem simtemp_push_WF (dev : nxp_simtemp_dev) (s : simtemp_sample)
    (h : WF dev) : WF (simtemp_push dev s) := by
  obtain ⟨hN, hh, ht⟩ := h
  refine ⟨hN, ?_, ?_⟩
  · show (dev.head + 1) % dev.buf_size < dev.buf_size
    exact Nat.mod_lt _ (by omega)
  · show (if (dev.head + 1) % dev.buf_size = dev.tail
        then (dev.tail + 1) % dev.buf_size else dev.tail) < dev.buf_size
    split_ifs
    · exact Nat.mod_lt _ (by omega)
    · exact ht

theorem occupancy_push (dev : nxp_simtemp_dev) (s : simtemp_sample)
    (h : WF dev) :
    occupancy (simtemp_push dev s) =
      if occupancy dev = dev.buf_size - 1 then dev.buf_size - 1
      else occupancy dev + 1 := by
  obtain ⟨hN, hh, ht⟩ := h
  have hwf : WF dev := ⟨hN, hh, ht⟩
  by_cases hfull : (dev.head + 1) % dev.buf_size = dev.tail
  · rw [if_pos ((push_full_iff dev hwf).mp hfull)]
    show (((dev.head + 1) % dev.buf_size) + dev.buf_size -
        (if (dev.head + 1) % dev.buf_size = dev.tail
         then (dev.tail + 1) % dev.buf_size else dev.tail)) %
        dev.buf_size = dev.buf_size - 1
    rw [if_pos hfull, hfull,
      mod_small (dev.tail + 1) _ (by omega) (by omega)]
    split_ifs with h1
    · rw [mod_small _ _ (by omega) (by omega)]
      split_ifs <;> omega
    · rw [mod_small _ _ (by omega) (by omega)]
      split_ifs <;> omega
  · rw [if_neg (fun hq => hfull ((push_full_iff dev hwf).mpr hq))]
    show (((dev.head + 1) % dev.buf_size) + dev.buf_size -
        (if (dev.head + 1) % dev.buf_size = dev.tail
         then (dev.tail + 1) % dev.buf_size else dev.tail)) %
        dev.buf_size = occupancy dev + 1
    rw [if_neg hfull]
    unfold occupancy
    rw [mod_small (dev.head + 1) _ (by omega) (by omega)] at hfull ⊢
    rw [mod_small (dev.head + dev.buf_size - dev.tail) _ (by omega) (by omega)]
    split_ifs at hfull ⊢ <;>
    · rw [mod_small _ _ (by omega) (by omega)]
      split_ifs <;> omega

theorem simtemp_push_contents (dev : nxp_simtemp_dev) (s : simtemp_sample)
    (h : WF dev) :
    contents (simtemp_push dev s) =
      ring_step dev.buf_size (contents dev) s := by
  obtain ⟨hN, hh, ht⟩ := h
  have hwf : WF dev := ⟨hN, hh, ht⟩
  by_cases hfc : occupancy dev = dev.buf_size - 1
  · -- full: the oldest sample is dropped
    have htail : (simtemp_push dev s).tail = (dev.tail + 1) % dev.buf_size := by
      show (if (dev.head + 1) % dev.buf_size = dev.tail
          then (dev.tail + 1) % dev.buf_size else dev.tail) = _
      rw [if_pos ((push_full_iff dev hwf).mpr hfc)]
    have ho' : occupancy (simtemp_push dev s) = dev.buf_size - 1 := by
      rw [occupancy_push dev s hwf, if_pos hfc]
    have hN2 : dev.buf_size - 1 = (dev.buf_size - 2) + 1 := by omega
    unfold ring_step
    rw [if_pos (by rw [contents_length]; exact hfc)]
    unfold contents
    rw [ho', hfc, hN2, drop_one_map_range, List.range_succ, List.map_append,
      List.map_singleton]
    congr 1
    · apply List.map_congr_left
      intro i hi
      have hi' : i < dev.buf_size - 2 := List.mem_range.mp hi
      rw [htail]
      show store dev.buffer dev.head s
          (((dev.tail + 1) % dev.buf_size + i) % dev.buf_size) = _
      rw [Nat.mod_add_mod]
      have h3 : dev.tail + 1 + i = dev.tail + (i + 1) := by omega
      rw [h3]
      unfold store
      rw [if_neg (tail_add_lt_ne_head dev hwf (i + 1) (by omega))]
    · rw [htail]
      show [store dev.buffer dev.head s
          (((dev.tail + 1) % dev.buf_size + (dev.buf_size - 2)) %
            dev.buf_size)] = [s]
      rw [Nat.mod_add_mod]
      have h3 : dev.tail + 1 + (dev.buf_size - 2) =
          dev.tail + occupancy dev := by omega
      rw [h3, tail_add_occ dev hwf]
      unfold store
      rw [if_pos rfl]
  · -- not full: plain append
    have htail : (simtemp_push dev s).tail = dev.tail := by
      show (if (dev.head + 1) % dev.buf_size = dev.tail
          then (dev.tail + 1) % dev.buf_size else dev.tail) = _
      rw [if_neg (fun hc => hfc ((push_full_iff dev hwf).mp hc))]
    have ho' : occupancy (simtemp_push dev s) = occupancy dev + 1 := by
      rw [occupancy_push dev s hwf, if_neg hfc]
    unfold ring_step
    rw [if_neg (by rw [contents_length]; exact hfc)]
    unfold contents
    rw [ho', List.range_succ, List.map_append, List.map_singleton]
    congr 1
    · apply List.map_congr_left
      intro i hi
      have hi' : i < occupancy dev := List.mem_range.mp hi
      rw [htail]
      show store dev.buffer dev.head s ((dev.tail + i) % dev.buf_size) = _
      unfold store
      rw [if_neg (tail_add_lt_ne_head dev hwf i hi')]
    · rw [htail]
      show [store dev.buffer dev.head s
          ((dev.tail + occupancy dev) % dev.buf_size)] = [s]
      rw [tail_add_occ dev hwf]
      unfold store
      rw [if_pos rfl]

theorem occupancy_advance (dev : nxp_simtemp_dev) (h : WF dev)
    (hne : dev.head ≠ dev.tail) :
    (dev.head + dev.buf_size - (dev.tail + 1) % dev.buf_size) %
      dev.buf_size = occupancy dev - 1 := by
  obtain ⟨hN, hh, ht⟩ := h
  have ho : occupancy dev ≠ 0 :=
    fun h0 => hne ((occupancy_zero_iff dev ⟨hN, hh, ht⟩).mp h0)
  unfold occupancy at ho ⊢
  rw [mod_small (dev.head + dev.buf_size - dev.tail) _ (by omega)
    (by omega)] at ho ⊢
  rw [mod_small (dev.tail + 1) _ (by omega) (by omega)]
  split_ifs at ho ⊢ <;>
  · rw [mod_small _ _ (by omega) (by omega)]
    split_ifs <;> omega

theorem simtemp_deliver_spec (dev : nxp_simtemp_dev) (cf : Bool)
    (h : WF dev) (hne : dev.head ≠ dev.tail) :
    (simtemp_read_deliver dev cf).1 =
      (if cf then Except.error Errno.EFAULT
       else Except.ok (dev.buffer dev.tail)) ∧
    contents (simtemp_read_deliver dev cf).2 = (contents dev).drop 1 ∧
    WF (simtemp_read_deliver dev cf).2 := by
  obtain ⟨hN, hh, ht⟩ := h
  have hwf : WF dev := ⟨hN, hh, ht⟩
  have ho : occupancy dev ≠ 0 :=
    fun h0 => hne ((occupancy_zero_iff dev hwf).mp h0)
  obtain ⟨k, hk⟩ := Nat.exists_eq_succ_of_ne_zero ho
  have htl : (simtemp_read_deliver dev cf).2 =
      { dev with tail := (dev.tail + 1) % dev.buf_size } := by
    cases cf <;> rfl
  refine ⟨by cases cf <;> rfl, ?_, ?_⟩
  · rw [htl]
    have ho2 : occupancy { dev with tail := (dev.tail + 1) % dev.buf_size }
        = k := by
      show (dev.head + dev.buf_size - (dev.tail + 1) % dev.buf_size) %
          dev.buf_size = k
      rw [occupancy_advance dev hwf hne]
      omega
    unfold contents
    rw [ho2, hk, drop_one_map_range]
    apply List.map_congr_left
    intro i hi
    show dev.buffer (((dev.tail + 1) % dev.buf_size + i) % dev.buf_size) = _
    rw [Nat.mod_add_mod]
    have h3 : dev.tail + 1 + i = dev.tail + (i + 1) := by omega
    rw [h3]
  · rw [htl]
    exact ⟨hN, hh, Nat.mod_lt _ (by omega)⟩

theorem ring_step_length (cap : Nat) (hcap : 2 ≤ cap)
    (q : List simtemp_sample) (s : simtemp_sample)
    (hq : q.length ≤ cap - 1) :
    (ring_step cap q s).length ≤ cap - 1 := by
  unfold ring_step
  split_ifs with h1 <;> simp <;> omega

theorem foldl_ring_step (cap : Nat) (hcap : 2 ≤ cap)
    (L : List simtemp_sample) :
    ∀ q : List simtemp_sample, q.length ≤ cap - 1 →
      L.foldl (ring_step cap) q =
        (q ++ L).drop ((q ++ L).length - (cap - 1)) := by
  induction L with
  | nil =>
      intro q hq
      rw [List.foldl_nil, List.append_nil]
      have h0 : q.length - (cap - 1) = 0 := by omega
      rw [h0, List.drop_zero]
  | cons s L ih =>
      intro q hq
      rw [List.foldl_cons, ih (ring_step cap q s)
        (ring_step_length cap hcap q s hq)]
      by_cases h1 : q.length = cap - 1
      · obtain ⟨a, q', rfl⟩ : ∃ a q', q = a :: q' := by
          cases q with
          | nil => exfalso; simp at h1; omega
          | cons a q' => exact ⟨a, q', rfl⟩
        unfold ring_step
        rw [if_pos h1]
        simp only [List.drop_succ_cons, List.drop_zero]
        have hq' : q'.length = cap - 2 := by simp at h1; omega
        have hL1 : ((q' ++ [s]) ++ L).length - (cap - 1) = L.length := by
          simp; omega
        have hL2 : ((a :: q') ++ s :: L).length - (cap - 1) =
            L.length + 1 := by simp; omega
        rw [hL1, hL2, List.cons_append, List.drop_succ_cons,
          List.append_assoc, List.singleton_append]
      · unfold ring_step
        rw [if_neg h1, List.append_assoc, List.singleton_append]

theorem pushList_spec (L : List simtemp_sample) :
    ∀ dev : nxp_simtemp_dev, WF dev →
      WF (pushList dev L) ∧
      (pushList dev L).buf_size = dev.buf_size ∧
      contents (pushList dev L) =
        L.foldl (ring_step dev.buf_size) (contents dev) := by
  induction L with
  | nil => exact fun dev h => ⟨h, rfl, rfl⟩
  | cons s L ih =>
      intro dev h
      have hstep := ih (simtemp_push dev s) (simtemp_push_WF dev s h)
      refine ⟨hstep.1, hstep.2.1, ?_⟩
      show contents (pushList (simtemp_push dev s) L) = _
      rw [hstep.2.2, simtemp_push_contents dev s h, List.foldl_cons]
      rfl

theorem popK_last (k : Nat) :
    ∀ (d : nxp_simtemp_dev) (x : simtemp_sample)
      (q : List simtemp_sample),
      WF d → contents d = q ++ [x] → q.length = k →
      (simtemp_read_deliver (popK k d) false).1 = Except.ok x := by
  induction k with
  | zero =>
      intro d x q hwf hc hq
      have hq0 : q = [] := List.length_eq_zero.mp hq
      subst hq0
      rw [List.nil_append] at hc
      have hne : d.head ≠ d.tail := by
        intro he
        have h0 := (contents_eq_nil_iff d hwf).mpr ((buf_empty_iff d).mpr he)
        rw [hc] at h0
        simp at h0
      have hd := (simtemp_deliver_spec d false hwf hne).1
      rw [if_neg (by simp)] at hd
      obtain ⟨rest, hcc⟩ := contents_cons d hwf hne
      rw [hc] at hcc
      injection hcc with h1 h2
      show (simtemp_read_deliver d false).1 = Except.ok x
      rw [hd, h1]
  | succ k ih =>
      intro d x q hwf hc hq
      obtain ⟨a, q', rfl⟩ : ∃ a q', q = a :: q' := by
        cases q with
        | nil => simp at hq
        | cons a q' => exact ⟨a, q', rfl⟩
      have hne : d.head ≠ d.tail := by
        intro he
        have h0 := (contents_eq_nil_iff d hwf).mpr ((buf_empty_iff d).mpr he)
        rw [hc] at h0
        simp at h0
      have hds := simtemp_deliver_spec d false hwf hne
      show (simtemp_read_deliver
        (popK k (simtemp_read_deliver d false).2) false).1 = Except.ok x
      apply ih _ x q' hds.2.2
      · rw [hds.2.1, hc, List.cons_append, List.drop_succ_cons,
          List.drop_zero]
      · simpa using hq

/-! ### Claim theorems -/

/-- C2 counterexample: in ramp mode with threshold 41000 and cursor
40000, it is not the case that the alert flag is set from the third
sample onward; the generated values 40300, 40400, 40500 never exceed
41000, so the alert bit stays clear. -/
theorem C2_counterexample :
    ¬ (∀ s ∈ (make_samples 5 "ramp" 41000 40000 0).1.drop 2,
        s.flags.testBit 1 = true) := by decide

/-- C2 (amended): with mode "ramp" and threshold 41000, five consecutive
samples starting at cursor 40000 have values 40100, 40200, 40300, 40400,
40500; each sample's alert flag (bit1) is set iff its value strictly
exceeds 41000, which holds for none of the five, so the alert flag stays
clear on all of them (and bit0 is set on all of them). -/
theorem C2_ramp_alert :
    (make_samples 5 "ramp" 41000 40000 0).1.map
        (fun s => s.temp_mC) = [40100, 40200, 40300, 40400, 40500] ∧
    ∀ s ∈ (make_samples 5 "ramp" 41000 40000 0).1,
      s.flags.testBit 0 = true ∧
      (s.flags.testBit 1 = true ↔ (41000 : Int) < s.temp_mC) ∧
      s.flags.testBit 1 = false := by decide

/-- C6: every generated sample, in every mode and for every signed
threshold, has flag bit0 set (valid), and has flag bit1 (alert) set iff
its value in millidegrees Celsius is strictly greater than the
configured threshold. -/
theorem C6_sample_flags (mode : String) (th ramp : Int) (now rnd : Nat) :
    ((simtemp_make_sample mode th ramp now rnd).1.flags.testBit 0 = true) ∧
    ((simtemp_make_sample mode th ramp now rnd).1.flags.testBit 1 = true ↔
      th < (simtemp_make_sample mode th ramp now rnd).1.temp_mC) := by
  unfold simtemp_make_sample
  by_cases hgt : (gen_temp mode ramp rnd).1 > th
  · simp [hgt]
    decide
  · simp [hgt]
    decide

/-- C7: the ramp cursor starts at RAMP_START_MILLIC = 40000; each
generation call in ramp mode advances it by 100 and wraps it to 40000
once it exceeds 44000; the sample value equals the updated cursor; and
generation in any mode other than "ramp" leaves the cursor unchanged,
so it persists across mode switches (it is generator state threaded
separately from the device configuration). -/
theorem C7_ramp_cursor :
    RAMP_START_MILLIC = 40000 ∧
    (∀ r : Int,
       ramp_update r = if r + 100 > 44000 then 40000 else r + 100) ∧
    (∀ (th r : Int) (now rnd : Nat),
       (simtemp_make_sample "ramp" th r now rnd).1.temp_mC =
           (simtemp_make_sample "ramp" th r now rnd).2 ∧
       (simtemp_make_sample "ramp" th r now rnd).2 = ramp_update r) ∧
    (∀ (mode : String) (th r : Int) (now rnd : Nat), mode ≠ "ramp" →
       (simtemp_make_sample mode th r now rnd).2 = r) := by
  refine ⟨rfl, fun r => rfl, fun th r now rnd => ⟨rfl, rfl⟩, ?_⟩
  intro mode th r now rnd hmode
  by_cases hn : mode = "noisy" <;>
    simp [simtemp_make_sample, gen_temp, hmode, hn]

/-- C7 witness: generating in normal mode with threshold 45000 and
cursor 42000 leaves the cursor at 42000. -/
theorem C7_ramp_cursor_witness :
    (simtemp_make_sample "normal" 45000 42000 0 0).2 = 42000 :=
  C7_ramp_cursor.2.2.2 "normal" 45000 42000 0 0 (by decide)

/-- C3: every configuration-setter call with invalid input (a period
text that fails to parse or parses to 0, a threshold text that fails to
parse, or a mode name outside normal/noisy/ramp) returns EINVAL and
leaves the whole device — prior configuration values and Stats counters
included — unchanged. -/
theorem C3_setter_validation (dev : nxp_simtemp_dev) (buf : List Char)
    (count : Nat) :
    (kstrtouint buf = none ∨ kstrtouint buf = some 0 →
       sampling_ms_store dev buf count =
         (Except.error Errno.EINVAL, dev)) ∧
    (kstrtos32 buf = none →
       threshold_mC_store dev buf count =
         (Except.error Errno.EINVAL, dev)) ∧
    (¬ (buf = "normal".toList ∨ buf = "noisy".toList ∨
        buf = "ramp".toList) →
       mode_store dev buf count = (Except.error Errno.EINVAL, dev)) := by
  refine ⟨?_, ?_, ?_⟩
  · rintro (h | h) <;> simp [sampling_ms_store, h]
  · intro h
    simp [threshold_mC_store, h]
  · intro h
    have hcond : ¬ (buf.take 15 = "normal".toList ∨
        buf.take 15 = "noisy".toList ∨ buf.take 15 = "ramp".toList) := by
      rintro (hm | hm | hm)
      · exact h (Or.inl (take15_eq_self _ _ (by decide) hm))
      · exact h (Or.inr (Or.inl (take15_eq_self _ _ (by decide) hm)))
      · exact h (Or.inr (Or.inr (take15_eq_self _ _ (by decide) hm)))
    simp only [mode_store]
    rw [if_neg hcond]

/-- C3 witness: set_period(0), a malformed threshold text and a bogus
mode name are each rejected with EINVAL on the freshly probed device,
leaving it unchanged. -/
theorem C3_setter_validation_witness :
    sampling_ms_store nxp_simtemp_probe "0".toList 1 =
      (Except.error Errno.EINVAL, nxp_simtemp_probe) ∧
    threshold_mC_store nxp_simtemp_probe "abc".toList 3 =
      (Except.error Errno.EINVAL, nxp_simtemp_probe) ∧
    mode_store nxp_simtemp_probe "bogus".toList 5 =
      (Except.error Errno.EINVAL, nxp_simtemp_probe) :=
  ⟨(C3_setter_validation nxp_simtemp_probe "0".toList 1).1
      (Or.inr (by decide)),
   (C3_setter_validation nxp_simtemp_probe "abc".toList 3).2.1 (by decide),
   (C3_setter_validation nxp_simtemp_probe "bogus".toList 5).2.2
      (by decide)⟩

/-- C4: a read whose buffer is shorter than one 16-byte record returns
EINVAL before any state mutation; a non-blocking read on an empty ring
buffer returns EAGAIN immediately with the device unchanged; an
interrupted blocking read on an empty ring buffer returns the distinct
recoverable signal ERESTARTSYS with the device unchanged. -/
theorem C4_read_guards (dev : nxp_simtemp_dev) (count : Nat)
    (nonblock : Bool) (w : Option nxp_simtemp_dev) (cf : Bool) :
    (count < simtemp_sample_size →
       simtemp_read dev count nonblock w cf =
         (Except.error Errno.EINVAL, dev)) ∧
    (simtemp_sample_size ≤ count → buf_empty dev = true →
       simtemp_read dev count true w cf =
         (Except.error Errno.EAGAIN, dev)) ∧
    (simtemp_sample_size ≤ count → buf_empty dev = true →
       simtemp_read dev count false none cf =
         (Except.error Errno.ERESTARTSYS, dev)) := by
  refine ⟨?_, ?_, ?_⟩
  · intro h
    simp [simtemp_read, h]
  · intro h he
    simp [simtemp_read, Nat.not_lt.mpr h, he]
  · intro h he
    simp [simtemp_read, Nat.not_lt.mpr h, he]

/-- C4 witness: on the freshly probed (empty) device, an 8-byte read
returns EINVAL, a 16-byte non-blocking read returns EAGAIN, and a
16-byte blocking read whose wait is interrupted returns ERESTARTSYS,
each leaving the device unchanged. -/
theorem C4_read_guards_witness :
    simtemp_read nxp_simtemp_probe 8 true none false =
      (Except.error Errno.EINVAL, nxp_simtemp_probe) ∧
    simtemp_read nxp_simtemp_probe 16 true none false =
      (Except.error Errno.EAGAIN, nxp_simtemp_probe) ∧
    simtemp_read nxp_simtemp_probe 16 false none false =
      (Except.error Errno.ERESTARTSYS, nxp_simtemp_probe) :=
  ⟨(C4_read_guards nxp_simtemp_probe 8 true none false).1 (by decide),
   (C4_read_guards nxp_simtemp_probe 16 true none false).2.1
      (by decide) (by decide),
   (C4_read_guards nxp_simtemp_probe 16 false none false).2.2
      (by decide) (by decide)⟩

/-- C5: when a read passes the size check on a non-empty buffer and the
copy to the caller fails, the call returns EFAULT but still advances the
read index: the oldest sample is consumed and lost even though the call
reports failure. -/
theorem C5_copy_fail_consumes (dev : nxp_simtemp_dev) (count : Nat)
    (nonblock : Bool) (w : Option nxp_simtemp_dev)
    (hc : simtemp_sample_size ≤ count) (hne : buf_empty dev = false) :
    simtemp_read dev count nonblock w true =
      (Except.error Errno.EFAULT,
       { dev with tail := (dev.tail + 1) % dev.buf_size }) := by
  simp [simtemp_read, simtemp_read_deliver, Nat.not_lt.mpr hc, hne]

/-- C5 witness: after one push into the probed device, a failing copy on
a 16-byte read returns EFAULT with the tail advanced from 0 to 1. -/
theorem C5_copy_fail_consumes_witness :
    simtemp_read (simtemp_push nxp_simtemp_probe (mk_sample 1)) 16 true
        none true =
      (Except.error Errno.EFAULT,
       { simtemp_push nxp_simtemp_probe (mk_sample 1) with
         tail := ((simtemp_push nxp_simtemp_probe (mk_sample 1)).tail + 1) %
           (simtemp_push nxp_simtemp_probe (mk_sample 1)).buf_size }) :=
  C5_copy_fail_consumes (simtemp_push nxp_simtemp_probe (mk_sample 1)) 16
    true none (by decide) (by decide)

/-- C10: the mode setter accepts only exact matches of "normal", "noisy"
or "ramp": any valid mode name followed by extra characters (a trailing
newline included) is rejected with EINVAL and the device, its stored
mode included, is left unchanged. -/
theorem C10_mode_exact (dev : nxp_simtemp_dev) (count : Nat)
    (name suffix : List Char)
    (hname : name = "normal".toList ∨ name = "noisy".toList ∨
      name = "ramp".toList)
    (hs : suffix ≠ []) :
    mode_store dev (name ++ suffix) count =
      (Except.error Errno.EINVAL, dev) := by
  obtain ⟨c, t, rfl⟩ : ∃ c t, suffix = c :: t := by
    cases suffix with
    | nil => exact absurd rfl hs
    | cons c t => exact ⟨c, t, rfl⟩
  rcases hname with rfl | rfl | rfl
  · have hcond : ¬ ((("normal".toList ++ c :: t).take 15 = "normal".toList) ∨
        (("normal".toList ++ c :: t).take 15 = "noisy".toList) ∨
        (("normal".toList ++ c :: t).take 15 = "ramp".toList)) := by
      rintro (hm | hm | hm) <;>
      · have h2 := take15_eq_self _ _ (by decide) hm
        have h3 := congrArg List.length h2
        simp [normal_chars, noisy_chars, ramp_chars] at h3
    simp [mode_store, hcond]
  · have hcond : ¬ ((("noisy".toList ++ c :: t).take 15 = "normal".toList) ∨
        (("noisy".toList ++ c :: t).take 15 = "noisy".toList) ∨
        (("noisy".toList ++ c :: t).take 15 = "ramp".toList)) := by
      rintro (hm | hm | hm)
      · have h2 := take15_eq_self _ _ (by decide) hm
        rw [noisy_chars, normal_chars] at h2
        injection h2 with ha hb
        injection hb with ha hb
        injection hb with ha hb
        exact absurd ha (by decide)
      · have h2 := take15_eq_self _ _ (by decide) hm
        have h3 := congrArg List.length h2
        simp [noisy_chars] at h3
      · have h2 := take15_eq_self _ _ (by decide) hm
        have h3 := congrArg List.length h2
        simp [noisy_chars, ramp_chars] at h3
    simp [mode_store, hcond]
  · have hcond : ¬ ((("ramp".toList ++ c :: t).take 15 = "normal".toList) ∨
        (("ramp".toList ++ c :: t).take 15 = "noisy".toList) ∨
        (("ramp".toList ++ c :: t).take 15 = "ramp".toList)) := by
      rintro (hm | hm | hm)
      · have h2 := take15_eq_self _ _ (by decide) hm
        rw [ramp_chars, normal_chars] at h2
        injection h2 with ha hb
        exact absurd ha (by decide)
      · have h2 := take15_eq_self _ _ (by decide) hm
        rw [ramp_chars, noisy_chars] at h2
        injection h2 with ha hb
        exact absurd ha (by decide)
      · have h2 := take15_eq_self _ _ (by decide) hm
        have h3 := congrArg List.length h2
        simp [ramp_chars] at h3
    simp [mode_store, hcond]

/-- C10 witness: "ramp" followed by a single trailing newline, as
produced by a typical shell write, is rejected with EINVAL on the
probed device, leaving it unchanged. -/
theorem C10_mode_exact_witness :
    mode_store nxp_simtemp_probe ("ramp".toList ++ ['\n']) 5 =
      (Except.error Errno.EINVAL, nxp_simtemp_probe) :=
  C10_mode_exact nxp_simtemp_probe 5 "ramp".toList ['\n']
    (Or.inr (Or.inr rfl)) (by decide)

/-- C8: poll reports readable iff the ring buffer is non-empty and
priority iff the oldest unread sample exists and has its alert bit set;
it never mutates the device, so repeated calls with no intervening push
or pop return identical results. -/
theorem C8_poll (dev : nxp_simtemp_dev) (h : WF dev) :
    ((simtemp_poll dev).1.1 = true ↔ contents dev ≠ []) ∧
    ((simtemp_poll dev).1.2 = true ↔
      ∃ s rest, contents dev = s :: rest ∧ s.flags &&& 2 ≠ 0) ∧
    (simtemp_poll dev).2 = dev ∧
    simtemp_poll (simtemp_poll dev).2 = simtemp_poll dev := by
  refine ⟨?_, ?_, rfl, rfl⟩
  · rw [Ne, contents_eq_nil_iff dev h]
    show (! buf_empty dev) = true ↔ ¬ buf_empty dev = true
    simp
  · show ((dev.head != dev.tail) &&
      ((dev.buffer dev.tail).flags &&& 2 != 0)) = true ↔ _
    rw [Bool.and_eq_true, bne_iff_ne, bne_iff_ne]
    constructor
    · rintro ⟨hne, hfl⟩
      obtain ⟨rest, hcc⟩ := contents_cons dev h hne
      exact ⟨_, rest, hcc, hfl⟩
    · rintro ⟨s, rest, hcc, hfl⟩
      have hne : dev.head ≠ dev.tail := by
        intro he
        have h0 := (contents_eq_nil_iff dev h).mpr ((buf_empty_iff dev).mpr he)
        rw [hcc] at h0
        simp at h0
      obtain ⟨rest', hcc'⟩ := contents_cons dev h hne
      rw [hcc'] at hcc
      injection hcc with h1 h2
      exact ⟨hne, h1 ▸ hfl⟩

/-- C8 witness: poll on the freshly probed (empty, well-formed) device:
not readable, no priority, and the device is returned unchanged. -/
theorem C8_poll_witness :
    ((simtemp_poll nxp_simtemp_probe).1.1 = true ↔
      contents nxp_simtemp_probe ≠ []) ∧
    ((simtemp_poll nxp_simtemp_probe).1.2 = true ↔
      ∃ s rest, contents nxp_simtemp_probe = s :: rest ∧
        s.flags &&& 2 ≠ 0) ∧
    (simtemp_poll nxp_simtemp_probe).2 = nxp_simtemp_probe ∧
    simtemp_poll (simtemp_poll nxp_simtemp_probe).2 =
      simtemp_poll nxp_simtemp_probe :=
  C8_poll nxp_simtemp_probe ⟨by decide, by decide, by decide⟩

/-- C9: a sample pushed into the ring buffer and then popped after the
samples already pending (with no intervening overwrite of it) is
returned with its timestamp, value and flags fields identical to the
pushed sample. -/
theorem C9_roundtrip (dev : nxp_simtemp_dev) (s : simtemp_sample)
    (h : WF dev) :
    ∃ s', (simtemp_read_deliver
        (popK ((contents (simtemp_push dev s)).length - 1)
          (simtemp_push dev s)) false).1 = Except.ok s' ∧
      s'.timestamp_ns = s.timestamp_ns ∧ s'.temp_mC = s.temp_mC ∧
      s'.flags = s.flags := by
  refine ⟨s, ?_, rfl, rfl, rfl⟩
  have hpc := simtemp_push_contents dev s h
  have hwf' := simtemp_push_WF dev s h
  unfold ring_step at hpc
  by_cases hfc : (contents dev).length = dev.buf_size - 1
  · rw [if_pos hfc] at hpc
    exact popK_last _ _ s ((contents dev).drop 1) hwf' hpc
      (by rw [hpc]; simp)
  · rw [if_neg hfc] at hpc
    exact popK_last _ _ s (contents dev) hwf' hpc
      (by rw [hpc]; simp)

/-- C9 witness: pushing a concrete sample into the freshly probed
device and popping returns it with identical fields. -/
theorem C9_roundtrip_witness :
    ∃ s', (simtemp_read_deliver
        (popK ((contents (simtemp_push nxp_simtemp_probe
            (mk_sample 7))).length - 1)
          (simtemp_push nxp_simtemp_probe (mk_sample 7))) false).1 =
        Except.ok s' ∧
      s'.timestamp_ns = (mk_sample 7).timestamp_ns ∧
      s'.temp_mC = (mk_sample 7).temp_mC ∧
      s'.flags = (mk_sample 7).flags :=
  C9_roundtrip nxp_simtemp_probe (mk_sample 7)
    ⟨by decide, by decide, by decide⟩

/-- C1 counterexample: with buf_size 4, pushing s1..s6 sequentially and
popping does not return s3 first: the first pop returns s4, and the
fourth pop finds the buffer empty (EAGAIN), because head == tail means
empty and a push on a full buffer advances the tail, so the ring
retains at most buf_size - 1 = 3 samples, not 4. -/
theorem C1_counterexample :
    cap4_pop1.1 = Except.ok (mk_sample 4) ∧
    mk_sample 4 ≠ mk_sample 3 ∧
    cap4_pop4.1 = Except.error Errno.EAGAIN :=
  ⟨rfl, by decide, rfl⟩

/-- C1 (amended): for every sequence of at least buf_size - 1 pushes
into an initially empty well-formed buffer with no intervening pops,
the ring retains exactly the buf_size - 1 most recently pushed samples
in order, and the next pop returns exactly the (buf_size - 1)th-from-
newest sample (never anything older); with buf_size 4, pushing s1..s6
and then popping returns s4, s5, s6 in order and the fourth pop finds
the buffer empty. -/
theorem C1_retention (dev : nxp_simtemp_dev) (L : List simtemp_sample)
    (h : WF dev) (he : buf_empty dev = true)
    (hlen : dev.buf_size - 1 ≤ L.length) :
    contents (pushList dev L) =
      L.drop (L.length - (dev.buf_size - 1)) ∧
    (simtemp_read (pushList dev L) 16 true none false).1 =
      Except.ok ((L.drop (L.length - (dev.buf_size - 1))).headD
        default) ∧
    cap4_pop1.1 = Except.ok (mk_sample 4) ∧
    cap4_pop2.1 = Except.ok (mk_sample 5) ∧
    cap4_pop3.1 = Except.ok (mk_sample 6) ∧
    cap4_pop4.1 = Except.error Errno.EAGAIN := by
  have hbridge := pushList_spec L dev h
  have hnil : contents dev = [] := (contents_eq_nil_iff dev h).mpr he
  have h1 : contents (pushList dev L) =
      L.drop (L.length - (dev.buf_size - 1)) := by
    rw [hbridge.2.2, hnil,
      foldl_ring_step dev.buf_size h.1 L [] (by simp)]
    simp
  refine ⟨h1, ?_, rfl, rfl, rfl, rfl⟩
  have hlen2 : (contents (pushList dev L)).length = dev.buf_size - 1 := by
    rw [h1, List.length_drop]
    omega
  have hN2 : 1 < dev.buf_size := h.1
  have hneq : (pushList dev L).head ≠ (pushList dev L).tail := by
    intro heq
    have h0 := (contents_eq_nil_iff _ hbridge.1).mpr
      ((buf_empty_iff _).mpr heq)
    rw [h0] at hlen2
    simp at hlen2
    omega
  have hbe : buf_empty (pushList dev L) = false := by
    simp [buf_empty, hneq]
  obtain ⟨rest, hcc⟩ := contents_cons (pushList dev L) hbridge.1 hneq
  have hd1 := (simtemp_deliver_spec (pushList dev L) false hbridge.1
    hneq).1
  rw [if_neg (by simp)] at hd1
  have hread : (simtemp_read (pushList dev L) 16 true none false).1 =
      (simtemp_read_deliver (pushList dev L) false).1 := by
    unfold simtemp_read
    rw [if_neg (by simp [simtemp_sample_size]), hbe]
    simp
  rw [hread, hd1]
  rw [h1] at hcc
  rw [hcc]
  rfl

/-- C1 witness: applying the general retention theorem to the concrete
capacity-4 device and the six samples s1..s6 shows the retained
contents are exactly s4, s5, s6. -/
theorem C1_retention_witness :
    contents cap4_pushed = [mk_sample 4, mk_sample 5, mk_sample 6] := by
  have h := C1_retention cap4_dev
    [mk_sample 1, mk_sample 2, mk_sample 3, mk_sample 4, mk_sample 5,
     mk_sample 6] ⟨by decide, by decide, by decide⟩ (by decide) (by decide)
  show contents (pushList cap4_dev
    [mk_sample 1, mk_sample 2, mk_sample 3, mk_sample 4, mk_sample 5,
     mk_sample 6]) = _
  rw [h.1]
  rfl

end NxpSimtemp
